import Mathlib

/-!
Verification of the kmm account core (model.go): the Account decider/evolver,
the CurrentFunds and PeriodSummary projections, and the periodWindow calendar
arithmetic, embedded shallowly in Lean.

Instants are modelled the way Go's `time` package computes with them in a
single fixed zone: an integer count of nanoseconds since the Unix epoch.
`time.Date` resolves the (normalized) month against the proleptic Gregorian
calendar and then adds the remaining fields linearly; the civil-calendar
conversion here is extensionally the same calendar Go implements.
-/

namespace Kmm

/-- Instants: integer nanoseconds since 1970-01-01 00:00:00 in the fixed zone. -/
abbrev Time := Int

def nsPerSec : Int := 1000000000

def nsPerMin : Int := 60000000000

def nsPerHour : Int := 3600000000000

def nsPerDay : Int := 86400000000000

/-- Days from the start of a 400-year era (a year divisible by 400, counted
March-first) to the start of the March-based year `yoe` of that era. -/
def yearStartOfEra (yoe : Int) : Int := 365 * yoe + yoe / 4 - yoe / 100

/-- Largest `r ≤ k` with `yearStartOfEra r ≤ doe` (0 when there is none):
locates the March-based year of day `doe` within its 400-year era. -/
def findYoe (doe : Int) : Nat → Int
  | 0 => 0
  | k + 1 => if yearStartOfEra ((k : Int) + 1) ≤ doe then (k : Int) + 1 else findYoe doe k

/-- 400-year era of civil day `z` (days since the Unix epoch); eras are
counted from 0000-03-01, which is 719468 days before 1970-01-01. -/
def eraOf (z : Int) : Int := (z + 719468) / 146097

/-- Day of `z` within its 400-year era, in `[0, 146096]`. -/
def doeOf (z : Int) : Int := (z + 719468) % 146097

/-- March-based year of `z` within its era, in `[0, 399]`. -/
def yoeOf (z : Int) : Int := findYoe (doeOf z) 399

/-- Day of `z` within its March-based year, in `[0, 365]`. -/
def doyOf (z : Int) : Int := doeOf z - yearStartOfEra (yoeOf z)

/-- March-based month index of `z`: 0 = March, …, 11 = February. -/
def mpOf (z : Int) : Int := (5 * doyOf z + 2) / 153

/-- Civil month (1 = January, …, 12 = December) of day `z`. -/
def civilMonth (z : Int) : Int := if mpOf z < 10 then mpOf z + 3 else mpOf z - 9

/-- Civil year of day `z`. -/
def civilYear (z : Int) : Int :=
  eraOf z * 400 + yoeOf z + (if civilMonth z ≤ 2 then 1 else 0)

/-- Days from the start of a March-based year to the start of its month `mp`. -/
def doyBeforeMp (mp : Int) : Int := (153 * mp + 2) / 5

/-- Civil day of month (1-based) of day `z`. -/
def civilDay (z : Int) : Int := doyOf z - doyBeforeMp (mpOf z) + 1

/-- March-based month index of civil month `m ∈ [1, 12]`. -/
def mpOfMonth (m : Int) : Int := if 2 < m then m - 3 else m + 9

/-- Civil day number (days since the Unix epoch) of the calendar date
`(y, m, d)`, for `m ∈ [1, 12]`; linear in `d`, exactly as Go's `time.Date`
adds `day - 1` days after resolving the month. -/
def daysFromCivil (y m d : Int) : Int :=
  (y - (if m ≤ 2 then 1 else 0)) / 400 * 146097
    + yearStartOfEra ((y - (if m ≤ 2 then 1 else 0)) % 400)
    + doyBeforeMp (mpOfMonth m) + d - 1 - 719468

/-- Civil day number containing instant `t`. -/
def dayNumber (t : Time) : Int := t / nsPerDay

/-- Nanoseconds of `t` past its local midnight, in `[0, nsPerDay)`. -/
def subDay (t : Time) : Int := t % nsPerDay

/-- Go `Time.Year`. -/
def timeYear (t : Time) : Int := civilYear (dayNumber t)

/-- Go `Time.Month`. -/
def timeMonth (t : Time) : Int := civilMonth (dayNumber t)

/-- Go `Time.Day`. -/
def timeDay (t : Time) : Int := civilDay (dayNumber t)

/-- Go `Time.Hour`. -/
def timeHour (t : Time) : Int := (subDay t) / nsPerHour

/-- Go `Time.Minute`. -/
def timeMinute (t : Time) : Int := (subDay t % nsPerHour) / nsPerMin

/-- Go `Time.Second`. -/
def timeSecond (t : Time) : Int := (subDay t % nsPerMin) / nsPerSec

/-- Go `Time.Nanosecond`. -/
def timeNanosecond (t : Time) : Int := (subDay t) % nsPerSec

/-- Go `Time.Weekday`: Sunday = 0, …, Saturday = 6 (1970-01-01 was a Thursday). -/
def timeWeekday (t : Time) : Int := (dayNumber t + 4) % 7

/-- Go `time.Date(y, m, d, hh, mm, ss, ns, loc)` in the fixed zone: the month
is normalized into `[1, 12]` (overflowing into the year) and every other field
is added linearly, exactly as Go's implementation resolves them. -/
def timeDate (y m d hh mm ss ns : Int) : Int :=
  daysFromCivil (y + (m - 1) / 12) ((m - 1) % 12 + 1) d * nsPerDay
    + hh * nsPerHour + mm * nsPerMin + ss * nsPerSec + ns

/-- Go `Time.AddDate(y, m, d)`. -/
def addDate (t : Time) (y m d : Int) : Int :=
  timeDate (timeYear t + y) (timeMonth t + m) (timeDay t + d)
    (timeHour t) (timeMinute t) (timeSecond t) (timeNanosecond t)

/-- Go's zero `time.Time{}`: January 1 of year 1, midnight. -/
def zeroTime : Int := timeDate 1 1 1 0 0 0 0

/-- The four `Period` constants of model.go (Go `Period` is a string type;
the empty string on an `Account` means that no policy is set). -/
def Minute : String := "minute"

/-- See `Minute`. -/
def Daily : String := "daily"

/-- See `Minute`. -/
def Weekly : String := "weekly"

/-- See `Minute`. -/
def Monthly : String := "monthly"

/-- `periodWindow` of model.go: the start of the period containing `t` and
the start of the next period, for the given period granularity; both zero
instants for an unknown period. -/
def periodWindow (t : Time) (p : String) : Int × Int :=
  if p = Minute then
    (timeDate (timeYear t) (timeMonth t) (timeDay t) (timeHour t) (timeMinute t) 0 0,
     timeDate (timeYear t) (timeMonth t) (timeDay t) (timeHour t) (timeMinute t) 0 0 + nsPerMin)
  else if p = Daily then
    (timeDate (timeYear t) (timeMonth t) (timeDay t) 0 0 0 0,
     addDate (timeDate (timeYear t) (timeMonth t) (timeDay t) 0 0 0 0) 0 0 1)
  else if p = Weekly then
    (timeDate (timeYear t) (timeMonth t) (timeDay t - (timeWeekday t - 1)) 0 0 0 0,
     addDate (timeDate (timeYear t) (timeMonth t) (timeDay t - (timeWeekday t - 1)) 0 0 0 0) 0 0 7)
  else if p = Monthly then
    (timeDate (timeYear t) (timeMonth t) 1 0 0 0 0,
     addDate (timeDate (timeYear t) (timeMonth t) 1 0 0 0 0) 0 1 0)
  else (zeroTime, zeroTime)

/-- Amounts: `shopspring/decimal` arbitrary-precision decimals, of which the
program only uses exact addition, subtraction and comparison; modelled as
exact rationals. -/
abbrev Decimal := Rat

/-- The business errors of model.go (`ErrUnknownCommand`, `ErrNonZeroAmount`,
`ErrInvalidPeriod`, `ErrInsufficientFunds`, `ErrExceedWithinPeriod`). -/
inductive Err where
  | UnknownCommand
  | NonZeroAmount
  | InvalidPeriod
  | InsufficientFunds
  | ExceedWithinPeriod
  deriving DecidableEq

/-- The commands of model.go; `Unknown` stands for any payload outside the
four command types (the `default` arm of `Account.Decide`). -/
inductive Cmd where
  | DepositFunds (amount : Decimal) (description : String)
  | WithdrawFunds (amount : Decimal) (description : String)
  | SetWithdrawPolicy (maxAmount : Decimal) (period : String)
  | RemoveWithdrawPolicy
  | Unknown
  deriving DecidableEq

/-- The events of model.go. -/
inductive Event where
  | FundsDeposited (amount : Decimal) (description : String) (time : Time)
  | FundsWithdrawn (amount : Decimal) (description : String) (time : Time) (periodChanged : Bool)
  | WithdrawPolicySet (maxWithdrawAmount : Decimal) (period : String)
      (policyStartTime periodStartTime nextPeriodStartTime : Time)
  | WithdrawPolicyRemoved (policyRemoveTime : Time)
  deriving DecidableEq

/-- The per-command `Validate` methods of model.go (structural validation run
before `Decide`); commands without a `Validate` method always pass. -/
def Cmd.Validate : Cmd → Option Err
  | .DepositFunds amount _ => if amount ≤ 0 then some .NonZeroAmount else none
  | .WithdrawFunds amount _ => if amount ≤ 0 then some .NonZeroAmount else none
  | .SetWithdrawPolicy maxAmount period =>
      if maxAmount < 0 then some .NonZeroAmount
      else if period = Minute ∨ period = Daily ∨ period = Weekly ∨ period = Monthly then none
      else some .InvalidPeriod
  | .RemoveWithdrawPolicy => none
  | .Unknown => none

/-- The `Account` aggregate state of model.go (the injected clock is modelled
as the explicit `now` argument of `Decide`). -/
structure Account where
  CurrentFunds : Decimal
  MaxWithdrawAmount : Decimal
  PolicyPeriod : String
  PeriodStartTime : Time
  NextPeriodStartTime : Time
  FundsWithdrawnInPeriod : Decimal
  deriving DecidableEq

/-- `NewAccount()`: the zero-valued account every replay starts from. -/
def NewAccount : Account :=
  { CurrentFunds := 0, MaxWithdrawAmount := 0, PolicyPeriod := "",
    PeriodStartTime := zeroTime, NextPeriodStartTime := zeroTime,
    FundsWithdrawnInPeriod := 0 }

/-- `Account.Decide` of model.go. The Go method returns `([]*rita.Event,
error)` and never writes to the receiver; the first component of the result
models the receiver after the call, so that non-mutation is part of the
statement rather than of the encoding. -/
def Account.Decide (a : Account) (cmd : Cmd) (now : Time) : Account × List Event × Option Err :=
  match cmd with
  | .DepositFunds amount description =>
      (a, [.FundsDeposited amount description now], none)
  | .WithdrawFunds amount description =>
      if a.CurrentFunds - amount < 0 then
        (a, [], some .InsufficientFunds)
      else if a.PolicyPeriod ≠ "" then
        let periodChanged : Bool := decide (a.NextPeriodStartTime ≤ now)
        if periodChanged = false ∧ a.MaxWithdrawAmount < a.FundsWithdrawnInPeriod + amount then
          (a, [], some .ExceedWithinPeriod)
        else
          (a, [.FundsWithdrawn amount description now periodChanged], none)
      else
        (a, [.FundsWithdrawn amount description now false], none)
  | .SetWithdrawPolicy maxAmount period =>
      (a, [.WithdrawPolicySet maxAmount period now
            (periodWindow now period).1 (periodWindow now period).2], none)
  | .RemoveWithdrawPolicy =>
      (a, [.WithdrawPolicyRemoved now], none)
  | .Unknown =>
      (a, [], some .UnknownCommand)

/-- `Account.Evolve` of model.go (the Go method mutates the receiver and
always returns a nil error; modelled as returning the new state). -/
def Account.Evolve (a : Account) (e : Event) : Account :=
  match e with
  | .FundsDeposited amount _ _ =>
      { a with CurrentFunds := a.CurrentFunds + amount }
  | .FundsWithdrawn amount _ time periodChanged =>
      let a1 := { a with CurrentFunds := a.CurrentFunds - amount }
      if a1.PolicyPeriod ≠ "" then
        if periodChanged then
          { a1 with FundsWithdrawnInPeriod := amount,
                    PeriodStartTime := (periodWindow time a1.PolicyPeriod).1,
                    NextPeriodStartTime := (periodWindow time a1.PolicyPeriod).2 }
        else
          { a1 with FundsWithdrawnInPeriod := a1.FundsWithdrawnInPeriod + amount }
      else a1
  | .WithdrawPolicySet maxWithdrawAmount period _ periodStartTime nextPeriodStartTime =>
      { a with MaxWithdrawAmount := maxWithdrawAmount, PolicyPeriod := period,
               PeriodStartTime := periodStartTime, NextPeriodStartTime := nextPeriodStartTime,
               FundsWithdrawnInPeriod := 0 }
  | .WithdrawPolicyRemoved _ =>
      { a with MaxWithdrawAmount := 0, PolicyPeriod := "",
               PeriodStartTime := zeroTime, NextPeriodStartTime := zeroTime,
               FundsWithdrawnInPeriod := 0 }

/-- The `CurrentFunds` read-model projection of model.go. -/
structure CurrentFunds where
  Amount : Decimal
  deriving DecidableEq

/-- `CurrentFunds.Evolve` of model.go. -/
def CurrentFunds.Evolve (c : CurrentFunds) (e : Event) : CurrentFunds :=
  match e with
  | .FundsDeposited amount _ _ => { Amount := c.Amount + amount }
  | .FundsWithdrawn amount _ _ _ => { Amount := c.Amount - amount }
  | _ => c

/-- The `PeriodSummary` read-model projection of model.go. -/
structure PeriodSummary where
  PolicyPeriod : String
  PolicyStartTime : Time
  PolicyMaxWithdrawAmount : Decimal
  WithdrawalsInPeriod : Int
  FundsWithdrawnInPeriod : Decimal
  PeriodStartTime : Time
  NextPeriodStartTime : Time
  deriving DecidableEq

/-- `PeriodSummary.Evolve` of model.go (on `WithdrawPolicySet` the window is
derived from the event's policy start time and the just-assigned period, as
the Go code assigns `p.PolicyPeriod` before calling `periodWindow`). -/
def PeriodSummary.Evolve (p : PeriodSummary) (e : Event) : PeriodSummary :=
  match e with
  | .WithdrawPolicySet maxWithdrawAmount period policyStartTime _ _ =>
      { p with PolicyPeriod := period, PolicyMaxWithdrawAmount := maxWithdrawAmount,
               PolicyStartTime := policyStartTime, WithdrawalsInPeriod := 0,
               FundsWithdrawnInPeriod := 0,
               PeriodStartTime := (periodWindow policyStartTime period).1,
               NextPeriodStartTime := (periodWindow policyStartTime period).2 }
  | .WithdrawPolicyRemoved _ =>
      { p with PolicyPeriod := "", PolicyMaxWithdrawAmount := 0,
               PolicyStartTime := zeroTime, PeriodStartTime := zeroTime,
               NextPeriodStartTime := zeroTime }
  | .FundsWithdrawn amount _ time periodChanged =>
      let p1 :=
        if periodChanged then
          { p with WithdrawalsInPeriod := 0, FundsWithdrawnInPeriod := 0,
                   PeriodStartTime := (periodWindow time p.PolicyPeriod).1,
                   NextPeriodStartTime := (periodWindow time p.PolicyPeriod).2 }
        else p
      { p1 with WithdrawalsInPeriod := p1.WithdrawalsInPeriod + 1,
                FundsWithdrawnInPeriod := p1.FundsWithdrawnInPeriod + amount }
  | _ => p

/-- One step of the decide/evolve loop: the command is decided against the
current replayed state; on success the produced events are applied and
appended to the history, on a business error nothing changes. -/
def runStep (s : Account × List Event) (c : Cmd × Time) : Account × List Event :=
  match s.1.Decide c.1 c.2 with
  | (_, events, none) => (events.foldl Account.Evolve s.1, s.2 ++ events)
  | (_, _, some _) => s

/-- The decide/evolve loop over a command sequence (each command paired with
the clock reading at which it is decided), from the empty account. -/
def run (cmds : List (Cmd × Time)) : Account × List Event :=
  cmds.foldl runStep (NewAccount, [])

/-- The amount a `FundsWithdrawn` event contributes to the window
`[st, nst)`, judged by the event's time field. -/
def withdrawnInWindow (st nst : Time) : Event → Decimal
  | .FundsWithdrawn amount _ time _ => if st ≤ time ∧ time < nst then amount else 0
  | _ => 0

/-- Sum of the amounts of all `FundsWithdrawn` events whose times fall in
`[st, nst)`. -/
def windowWithdrawSum (st nst : Time) (evs : List Event) : Decimal :=
  (evs.map (withdrawnInWindow st nst)).sum

/-- State machine mirroring the account's own attribution of withdrawals to
the current period: while a policy is active it collects the amounts of the
withdrawals of the current period, excluding the period-opening withdrawal
(the event recorded with `periodChanged = true`), and resets on every policy
change and period rollover exactly where `Account.Evolve` resets its
`FundsWithdrawnInPeriod` counter. -/
def periodTailStep (s : Bool × List Decimal) (e : Event) : Bool × List Decimal :=
  match e with
  | .WithdrawPolicySet _ _ _ _ _ => (true, [])
  | .WithdrawPolicyRemoved _ => (false, [])
  | .FundsWithdrawn amount _ _ periodChanged =>
      if s.1 then (if periodChanged then (true, []) else (true, s.2 ++ [amount])) else s
  | _ => s

/-- See `periodTailStep`. -/
def periodTail (evs : List Event) : Bool × List Decimal :=
  evs.foldl periodTailStep (false, [])

/-- Sum of the amounts of the current period's withdrawals other than the
period-opening one, while a policy is active. -/
def periodTailSum (evs : List Event) : Decimal := (periodTail evs).2.sum

/-- Instant used by concrete scenarios: 2019-05-03 12:00:00. -/
def tMay3Noon : Time := timeDate 2019 5 3 12 0 0 0

/-- 2019-05-04 12:00:00, one day later. -/
def tMay4Noon : Time := timeDate 2019 5 4 12 0 0 0

/-- Command sequence refuting C2 as stated: set a daily policy with maximum
10, then, on the next day, make a single period-opening withdrawal of 100,
which `Decide` accepts without consulting the policy maximum. -/
def cexC2cmds : List (Cmd × Time) :=
  [(.DepositFunds 100 "pay", tMay3Noon),
   (.SetWithdrawPolicy 10 Daily, tMay3Noon),
   (.WithdrawFunds 100 "rent", tMay4Noon)]

/-- A `PeriodSummary` with nonzero period counters, refuting C4 as stated. -/
def cexC4summary : PeriodSummary :=
  { PolicyPeriod := Minute, PolicyStartTime := tMay3Noon, PolicyMaxWithdrawAmount := 30,
    WithdrawalsInPeriod := 1, FundsWithdrawnInPeriod := 10,
    PeriodStartTime := tMay3Noon, NextPeriodStartTime := tMay4Noon }

/-- A Sunday afternoon: 2019-05-05 15:00:00. -/
def tSunday : Time := timeDate 2019 5 5 15 0 0 0

/-- The zero-valued `PeriodSummary` every projection rebuild starts from. -/
def emptySummary : PeriodSummary :=
  { PolicyPeriod := "", PolicyStartTime := zeroTime, PolicyMaxWithdrawAmount := 0,
    WithdrawalsInPeriod := 0, FundsWithdrawnInPeriod := 0,
    PeriodStartTime := zeroTime, NextPeriodStartTime := zeroTime }

/-- Inductive invariant tying the account state to the period-tail machine:
the machine's active flag mirrors whether a policy is set, and while one is,
the collected tail (the current period's withdrawals other than the
period-opening one) is bounded by the account's period counter and by the
policy maximum, which is non-negative. -/
def tailInv (a : Account) (m : Bool × List Decimal) : Prop :=
  (m.1 = true ↔ a.PolicyPeriod ≠ "") ∧
    (a.PolicyPeriod ≠ "" →
      m.2.sum ≤ a.FundsWithdrawnInPeriod ∧ m.2.sum ≤ a.MaxWithdrawAmount ∧
        0 ≤ a.MaxWithdrawAmount)

lemma yearStartOfEra_mono {i j : Int} (h : i ≤ j) : yearStartOfEra i ≤ yearStartOfEra j := by
  unfold yearStartOfEra; omega

lemma findYoe_spec (doe : Int) (h0 : 0 ≤ doe) (k : Nat) :
    0 ≤ findYoe doe k ∧ findYoe doe k ≤ (k : Int) ∧
      yearStartOfEra (findYoe doe k) ≤ doe ∧
      (doe < yearStartOfEra (findYoe doe k + 1) ∨ findYoe doe k = (k : Int)) := by
  induction k with
  | zero =>
    refine ⟨le_refl 0, le_refl 0, ?_, Or.inr rfl⟩
    show yearStartOfEra 0 ≤ doe
    unfold yearStartOfEra; omega
  | succ k ih =>
    simp only [findYoe]
    by_cases hb : yearStartOfEra ((k : Int) + 1) ≤ doe
    · rw [if_pos hb]
      refine ⟨by positivity, by push_cast; omega, hb, Or.inr (by push_cast; ring)⟩
    · rw [if_neg hb]
      obtain ⟨i1, i2, i3, i4⟩ := ih
      refine ⟨i1, by push_cast; omega, i3, Or.inl ?_⟩
      rcases i4 with h | h
      · exact h
      · rw [h]; omega

lemma findYoe_eq (doe a : Int) (k : Nat) (h0 : 0 ≤ a) (hak : a ≤ (k : Int))
    (h1 : yearStartOfEra a ≤ doe) (h2 : doe < yearStartOfEra (a + 1)) :
    findYoe doe k = a := by
  induction k with
  | zero =>
    have : a = 0 := by exact_mod_cast le_antisymm hak h0
    simpa [findYoe] using this.symm
  | succ k ih =>
    simp only [findYoe]
    by_cases hb : yearStartOfEra ((k : Int) + 1) ≤ doe
    · rw [if_pos hb]
      by_contra hne
      have hlt : a ≤ (k : Int) := by push_cast at hak; omega
      have : yearStartOfEra (a + 1) ≤ yearStartOfEra ((k : Int) + 1) :=
        yearStartOfEra_mono (by omega)
      omega
    · rw [if_neg hb]
      have : a ≠ (k : Int) + 1 := by
        intro h; rw [h] at h1; exact hb h1
      exact ih (by push_cast at hak ⊢; omega)

lemma doeOf_bounds (z : Int) : 0 ≤ doeOf z ∧ doeOf z ≤ 146096 := by
  unfold doeOf; omega

lemma era_decomp (z : Int) : z + 719468 = 146097 * eraOf z + doeOf z := by
  unfold eraOf doeOf; omega

lemma yoeOf_spec (z : Int) :
    0 ≤ yoeOf z ∧ yoeOf z ≤ 399 ∧ yearStartOfEra (yoeOf z) ≤ doeOf z ∧
      (doeOf z < yearStartOfEra (yoeOf z + 1) ∨ yoeOf z = 399) := by
  have h := findYoe_spec (doeOf z) (doeOf_bounds z).1 399
  exact_mod_cast h

lemma doyOf_bounds (z : Int) : 0 ≤ doyOf z ∧ doyOf z ≤ 365 := by
  obtain ⟨hd0, hd1⟩ := doeOf_bounds z
  obtain ⟨hy0, hy1, hy2, hy3⟩ := yoeOf_spec z
  unfold doyOf
  constructor
  · omega
  · rcases hy3 with h | h
    · have hgap : yearStartOfEra (yoeOf z + 1) - yearStartOfEra (yoeOf z) ≤ 366 := by
        unfold yearStartOfEra; omega
      omega
    · have : yearStartOfEra (yoeOf z) = 145731 := by
        rw [h]; unfold yearStartOfEra; decide
      omega

lemma mpOf_bounds (z : Int) : 0 ≤ mpOf z ∧ mpOf z ≤ 11 := by
  obtain ⟨h0, h1⟩ := doyOf_bounds z
  unfold mpOf; omega

lemma civilMonth_range (z : Int) : 1 ≤ civilMonth z ∧ civilMonth z ≤ 12 := by
  obtain ⟨h0, h1⟩ := mpOf_bounds z
  unfold civilMonth
  split <;> omega

lemma mpOfMonth_civilMonth (z : Int) : mpOfMonth (civilMonth z) = mpOf z := by
  obtain ⟨h0, h1⟩ := mpOf_bounds z
  unfold mpOfMonth civilMonth
  split <;> split <;> omega

/-- Rebuilding a civil day number from its extracted calendar date gives the
day number back: the civil conversion is a section of `daysFromCivil`. -/
theorem daysFromCivil_civil (z : Int) :
    daysFromCivil (civilYear z) (civilMonth z) (civilDay z) = z := by
  obtain ⟨hy0, hy1, _, _⟩ := yoeOf_spec z
  have hind : civilYear z - (if civilMonth z ≤ 2 then 1 else 0) =
      eraOf z * 400 + yoeOf z := by
    unfold civilYear; ring
  have hdiv : (eraOf z * 400 + yoeOf z) / 400 = eraOf z := by omega
  have hmod : (eraOf z * 400 + yoeOf z) % 400 = yoeOf z := by omega
  have hera := era_decomp z
  unfold daysFromCivil
  rw [hind, hdiv, hmod, mpOfMonth_civilMonth]
  unfold civilDay doyOf at *
  omega

lemma doyBeforeMp_mpOf_doyBeforeMp (mp : Int) :
    (5 * doyBeforeMp mp + 2) / 153 = mp := by
  unfold doyBeforeMp; omega

/-- Extracting the calendar date of the day number of the first of a month
gives the month back: `daysFromCivil` at day 1 is a section of the civil
conversion, for in-range months. -/
theorem civil_daysFromCivil (y m : Int) (h1 : 1 ≤ m) (h2 : m ≤ 12) :
    civilYear (daysFromCivil y m 1) = y ∧ civilMonth (daysFromCivil y m 1) = m ∧
      civilDay (daysFromCivil y m 1) = 1 := by
  have hyo0 : 0 ≤ (y - (if m ≤ 2 then 1 else 0)) % 400 := by omega
  have hyo1 : (y - (if m ≤ 2 then 1 else 0)) % 400 ≤ 399 := by omega
  have hmp0 : 0 ≤ mpOfMonth m := by unfold mpOfMonth; omega
  have hmp1 : mpOfMonth m ≤ 11 := by unfold mpOfMonth; omega
  have hd0 : 0 ≤ doyBeforeMp (mpOfMonth m) ∧ doyBeforeMp (mpOfMonth m) ≤ 337 := by
    unfold doyBeforeMp; omega
  have hyse : 0 ≤ yearStartOfEra ((y - (if m ≤ 2 then 1 else 0)) % 400) ∧
      yearStartOfEra ((y - (if m ≤ 2 then 1 else 0)) % 400) ≤ 145731 := by
    unfold yearStartOfEra; omega
  have hz : daysFromCivil y m 1 + 719468 =
      146097 * ((y - (if m ≤ 2 then 1 else 0)) / 400) +
        (yearStartOfEra ((y - (if m ≤ 2 then 1 else 0)) % 400) + doyBeforeMp (mpOfMonth m)) := by
    unfold daysFromCivil; ring
  have hera : eraOf (daysFromCivil y m 1) = (y - (if m ≤ 2 then 1 else 0)) / 400 := by
    unfold eraOf; omega
  have hdoe : doeOf (daysFromCivil y m 1) =
      yearStartOfEra ((y - (if m ≤ 2 then 1 else 0)) % 400) + doyBeforeMp (mpOfMonth m) := by
    unfold doeOf; omega
  have hgap : yearStartOfEra ((y - (if m ≤ 2 then 1 else 0)) % 400 + 1) -
      yearStartOfEra ((y - (if m ≤ 2 then 1 else 0)) % 400) ≥ 364 := by
    unfold yearStartOfEra; omega
  have hyoe : yoeOf (daysFromCivil y m 1) = (y - (if m ≤ 2 then 1 else 0)) % 400 := by
    unfold yoeOf
    refine findYoe_eq _ _ _ hyo0 (by norm_num; omega) ?_ ?_
    · rw [hdoe]; omega
    · rw [hdoe]; omega
  have hdoy : doyOf (daysFromCivil y m 1) = doyBeforeMp (mpOfMonth m) := by
    unfold doyOf
    rw [hdoe, hyoe]; ring
  have hmp : mpOf (daysFromCivil y m 1) = mpOfMonth m := by
    unfold mpOf
    rw [hdoy]
    exact doyBeforeMp_mpOf_doyBeforeMp _
  have hmonth : civilMonth (daysFromCivil y m 1) = m := by
    unfold civilMonth
    rw [hmp]
    unfold mpOfMonth
    split <;> split <;> omega
  refine ⟨?_, hmonth, ?_⟩
  · unfold civilYear
    rw [hera, hyoe, hmonth]
    omega
  · unfold civilDay
    rw [hdoy, hmp]
    ring

lemma time_decomp (t : Int) : t = dayNumber t * nsPerDay + subDay t := by
  simp only [dayNumber, subDay, nsPerDay]; omega

lemma subDay_fields (t : Int) :
    timeHour t * nsPerHour + timeMinute t * nsPerMin + timeSecond t * nsPerSec +
      timeNanosecond t = subDay t := by
  simp only [timeHour, timeMinute, timeSecond, timeNanosecond, subDay,
    nsPerDay, nsPerHour, nsPerMin, nsPerSec]
  omega

lemma timeMonth_range (t : Int) : 1 ≤ timeMonth t ∧ timeMonth t ≤ 12 :=
  civilMonth_range (dayNumber t)

/-- Rebuilding an instant with `time.Date` from all of its extracted calendar
fields gives the instant back. -/
theorem timeDate_fields (t : Int) :
    timeDate (timeYear t) (timeMonth t) (timeDay t) (timeHour t) (timeMinute t)
      (timeSecond t) (timeNanosecond t) = t := by
  obtain ⟨hm1, hm2⟩ := timeMonth_range t
  have hd : daysFromCivil (timeYear t) (timeMonth t) (timeDay t) = dayNumber t := by
    unfold timeYear timeMonth timeDay
    exact daysFromCivil_civil (dayNumber t)
  have hnorm1 : (timeMonth t - 1) / 12 = 0 := by omega
  have hnorm2 : (timeMonth t - 1) % 12 + 1 = timeMonth t := by omega
  unfold timeDate
  rw [hnorm1, add_zero, hnorm2, hd]
  simp only [dayNumber, subDay, timeHour, timeMinute, timeSecond, timeNanosecond,
    nsPerDay, nsPerHour, nsPerMin, nsPerSec]
  omega

lemma daysFromCivil_shift (y m d e : Int) :
    daysFromCivil y m (d + e) = daysFromCivil y m d + e := by
  unfold daysFromCivil; ring

lemma minuteMultiple_fields (v : Int) (h : (60000000000 : Int) ∣ v) :
    timeSecond v = 0 ∧ timeNanosecond v = 0 := by
  simp only [timeSecond, timeNanosecond, subDay, nsPerDay, nsPerMin, nsPerSec]
  omega

lemma dayMultiple_fields (v : Int) (h : (86400000000000 : Int) ∣ v) :
    timeHour v = 0 ∧ timeMinute v = 0 ∧ timeSecond v = 0 ∧ timeNanosecond v = 0 ∧
      dayNumber v * nsPerDay = v := by
  simp only [timeHour, timeMinute, timeSecond, timeNanosecond, dayNumber, subDay,
    nsPerDay, nsPerHour, nsPerMin, nsPerSec]
  omega

lemma periodWindow_minute_fst (t : Time) :
    (periodWindow t Minute).1 =
      timeDate (timeYear t) (timeMonth t) (timeDay t) (timeHour t) (timeMinute t) 0 0 := by
  unfold periodWindow
  rw [if_pos rfl]

lemma periodWindow_daily_fst (t : Time) :
    (periodWindow t Daily).1 = timeDate (timeYear t) (timeMonth t) (timeDay t) 0 0 0 0 := by
  unfold periodWindow
  rw [if_neg (by decide), if_pos rfl]

lemma periodWindow_weekly_fst (t : Time) :
    (periodWindow t Weekly).1 =
      timeDate (timeYear t) (timeMonth t) (timeDay t - (timeWeekday t - 1)) 0 0 0 0 := by
  unfold periodWindow
  rw [if_neg (by decide), if_neg (by decide), if_pos rfl]

lemma periodWindow_monthly_fst (t : Time) :
    (periodWindow t Monthly).1 = timeDate (timeYear t) (timeMonth t) 1 0 0 0 0 := by
  unfold periodWindow
  rw [if_neg (by decide), if_neg (by decide), if_neg (by decide), if_pos rfl]

lemma timeDate_midnight_dvd (y m d : Int) : (86400000000000 : Int) ∣ timeDate y m d 0 0 0 0 := by
  simp only [timeDate, nsPerDay, nsPerHour, nsPerMin, nsPerSec]
  omega

lemma timeDate_midnight_reconstruct (v : Int) (h : (86400000000000 : Int) ∣ v) :
    timeDate (timeYear v) (timeMonth v) (timeDay v) 0 0 0 0 = v := by
  obtain ⟨h1, h2, h3, h4, _⟩ := dayMultiple_fields v h
  have hf := timeDate_fields v
  rw [h1, h2, h3, h4] at hf
  exact hf

lemma dayNumber_timeDate_midnight (t : Int) (d : Int) :
    dayNumber (timeDate (timeYear t) (timeMonth t) d 0 0 0 0) =
      dayNumber t + (d - timeDay t) := by
  obtain ⟨hm1, hm2⟩ := timeMonth_range t
  have hnorm1 : (timeMonth t - 1) / 12 = 0 := by omega
  have hnorm2 : (timeMonth t - 1) % 12 + 1 = timeMonth t := by omega
  have hshift : daysFromCivil (timeYear t) (timeMonth t) d =
      daysFromCivil (timeYear t) (timeMonth t) (timeDay t) + (d - timeDay t) := by
    have := daysFromCivil_shift (timeYear t) (timeMonth t) (timeDay t) (d - timeDay t)
    rw [show timeDay t + (d - timeDay t) = d by ring] at this
    exact this
  have hrt : daysFromCivil (timeYear t) (timeMonth t) (timeDay t) = dayNumber t := by
    unfold timeYear timeMonth timeDay
    exact daysFromCivil_civil (dayNumber t)
  unfold timeDate
  rw [hnorm1, add_zero (timeYear t), hnorm2, hshift, hrt]
  simp only [dayNumber, nsPerDay, nsPerHour, nsPerMin, nsPerSec]
  omega

lemma periodWindow_minute_idem (t : Int) :
    (periodWindow ((periodWindow t Minute).1) Minute).1 = (periodWindow t Minute).1 := by
  rw [periodWindow_minute_fst t, periodWindow_minute_fst]
  have hdvd : (60000000000 : Int) ∣
      timeDate (timeYear t) (timeMonth t) (timeDay t) (timeHour t) (timeMinute t) 0 0 := by
    simp only [timeDate, nsPerDay, nsPerHour, nsPerMin, nsPerSec]
    omega
  obtain ⟨h1, h2⟩ := minuteMultiple_fields _ hdvd
  have hf := timeDate_fields
    (timeDate (timeYear t) (timeMonth t) (timeDay t) (timeHour t) (timeMinute t) 0 0)
  rw [h1, h2] at hf
  exact hf

lemma periodWindow_daily_idem (t : Int) :
    (periodWindow ((periodWindow t Daily).1) Daily).1 = (periodWindow t Daily).1 := by
  rw [periodWindow_daily_fst t, periodWindow_daily_fst]
  exact timeDate_midnight_reconstruct _ (timeDate_midnight_dvd _ _ _)

lemma periodWindow_weekly_idem (t : Int) :
    (periodWindow ((periodWindow t Weekly).1) Weekly).1 = (periodWindow t Weekly).1 := by
  rw [periodWindow_weekly_fst t, periodWindow_weekly_fst]
  have hday : dayNumber (timeDate (timeYear t) (timeMonth t)
      (timeDay t - (timeWeekday t - 1)) 0 0 0 0) = dayNumber t - (timeWeekday t - 1) := by
    rw [dayNumber_timeDate_midnight t (timeDay t - (timeWeekday t - 1))]
    ring
  have hw : timeWeekday (timeDate (timeYear t) (timeMonth t)
      (timeDay t - (timeWeekday t - 1)) 0 0 0 0) = 1 := by
    unfold timeWeekday at *
    rw [hday]
    omega
  rw [hw]
  rw [show timeDay (timeDate (timeYear t) (timeMonth t)
      (timeDay t - (timeWeekday t - 1)) 0 0 0 0) - (1 - 1) =
    timeDay (timeDate (timeYear t) (timeMonth t)
      (timeDay t - (timeWeekday t - 1)) 0 0 0 0) by ring]
  exact timeDate_midnight_reconstruct _ (timeDate_midnight_dvd _ _ _)

lemma periodWindow_monthly_idem (t : Int) :
    (periodWindow ((periodWindow t Monthly).1) Monthly).1 = (periodWindow t Monthly).1 := by
  rw [periodWindow_monthly_fst t, periodWindow_monthly_fst]
  obtain ⟨hm1, hm2⟩ := timeMonth_range t
  have hday : dayNumber (timeDate (timeYear t) (timeMonth t) 1 0 0 0 0) =
      daysFromCivil (timeYear t) (timeMonth t) 1 := by
    have hd := timeDate_midnight_dvd (timeYear t) (timeMonth t) 1
    have hnorm1 : (timeMonth t - 1) / 12 = 0 := by omega
    have hnorm2 : (timeMonth t - 1) % 12 + 1 = timeMonth t := by omega
    unfold timeDate
    rw [hnorm1, add_zero (timeYear t), hnorm2]
    simp only [dayNumber, nsPerDay, nsPerHour, nsPerMin, nsPerSec]
    omega
  obtain ⟨hcy, hcm, _⟩ := civil_daysFromCivil (timeYear t) (timeMonth t) hm1 hm2
  have hY : timeYear (timeDate (timeYear t) (timeMonth t) 1 0 0 0 0) = timeYear t := by
    show civilYear (dayNumber (timeDate (timeYear t) (timeMonth t) 1 0 0 0 0)) = timeYear t
    rw [hday]
    exact hcy
  have hM : timeMonth (timeDate (timeYear t) (timeMonth t) 1 0 0 0 0) = timeMonth t := by
    show civilMonth (dayNumber (timeDate (timeYear t) (timeMonth t) 1 0 0 0 0)) = timeMonth t
    rw [hday]
    exact hcm
  rw [hY, hM]

/-- C7: for every period in {minute, daily, weekly, monthly} and every
instant already aligned to a period boundary — that is, every start returned
by `periodWindow` — the start component of `periodWindow` at that instant is
the instant itself (idempotence of flooring to the period start). -/
theorem c7_periodWindow_idempotent (t : Time) (p : String)
    (hp : p = Minute ∨ p = Daily ∨ p = Weekly ∨ p = Monthly) :
    (periodWindow ((periodWindow t p).1) p).1 = (periodWindow t p).1 := by
  rcases hp with h | h | h | h <;> subst h
  · exact periodWindow_minute_idem t
  · exact periodWindow_daily_idem t
  · exact periodWindow_weekly_idem t
  · exact periodWindow_monthly_idem t

/-- Witness for C7: the daily window start of 2019-05-03 12:00 is a fixed
point of `periodWindow`. -/
theorem c7_periodWindow_idempotent_witness :
    (Daily = Minute ∨ Daily = Daily ∨ Daily = Weekly ∨ Daily = Monthly) ∧
      (periodWindow ((periodWindow tMay3Noon Daily).1) Daily).1 =
        (periodWindow tMay3Noon Daily).1 :=
  ⟨Or.inr (Or.inl rfl),
   c7_periodWindow_idempotent tMay3Noon Daily (Or.inr (Or.inl rfl))⟩

set_option maxRecDepth 100000 in
/-- C5: evaluation of the weekly window at the Sunday instant 2019-05-05
15:00. The code computes `day - (weekday - Monday)` with Go's Sunday = 0,
giving day + 1: the returned start is the *following* Monday 2019-05-06 —
strictly after the instant — not the most recent Monday 2019-04-29 at local
midnight that the claim (and the function's own contract of bracketing the
instant's current period) requires. -/
theorem c5_weekly_sunday_divergence :
    timeWeekday tSunday = 0 ∧
      (periodWindow tSunday Weekly).1 = timeDate 2019 5 6 0 0 0 0 ∧
      (periodWindow tSunday Weekly).2 = timeDate 2019 5 13 0 0 0 0 ∧
      timeDate 2019 4 29 0 0 0 0 < tSunday ∧
      tSunday < (periodWindow tSunday Weekly).1 := by
  decide

/-- C4 as stated is false: applying `WithdrawPolicyRemoved` to a summary
with one recorded withdrawal of 10 leaves `WithdrawalsInPeriod = 1` and
`FundsWithdrawnInPeriod = 10`; the projection does not clear them. -/
theorem c4_remove_counterexample :
    ¬((cexC4summary.Evolve (.WithdrawPolicyRemoved tMay4Noon)).WithdrawalsInPeriod = 0 ∧
      (cexC4summary.Evolve (.WithdrawPolicyRemoved tMay4Noon)).FundsWithdrawnInPeriod = 0) := by
  decide

/-- C4 amended: `PeriodSummary.Evolve` on `WithdrawPolicyRemoved` clears the
five policy fields to their zero values but leaves `WithdrawalsInPeriod` and
`FundsWithdrawnInPeriod` unchanged. -/
theorem c4_remove_clears_policy_fields (p : PeriodSummary) (tm : Time) :
    (p.Evolve (.WithdrawPolicyRemoved tm)).PolicyPeriod = "" ∧
    (p.Evolve (.WithdrawPolicyRemoved tm)).PolicyMaxWithdrawAmount = 0 ∧
    (p.Evolve (.WithdrawPolicyRemoved tm)).PolicyStartTime = zeroTime ∧
    (p.Evolve (.WithdrawPolicyRemoved tm)).PeriodStartTime = zeroTime ∧
    (p.Evolve (.WithdrawPolicyRemoved tm)).NextPeriodStartTime = zeroTime ∧
    (p.Evolve (.WithdrawPolicyRemoved tm)).WithdrawalsInPeriod = p.WithdrawalsInPeriod ∧
    (p.Evolve (.WithdrawPolicyRemoved tm)).FundsWithdrawnInPeriod = p.FundsWithdrawnInPeriod :=
  ⟨rfl, rfl, rfl, rfl, rfl, rfl, rfl⟩

set_option linter.unusedVariables false in
/-- C10: with no policy set (empty `PolicyPeriod`), a `FundsWithdrawn` event
with `PeriodChanged = false` still increments the summary's withdrawal count
and adds its amount to the summary's period total, while `Account.Evolve`
leaves the account's period bookkeeping untouched in the same situation. -/
theorem c10_summary_counts_without_policy (p : PeriodSummary) (a : Account)
    (amt : Decimal) (desc : String) (tm : Time)
    (hsum : p.PolicyPeriod = "") (ha : a.PolicyPeriod = "") :
    (p.Evolve (.FundsWithdrawn amt desc tm false)).WithdrawalsInPeriod =
        p.WithdrawalsInPeriod + 1 ∧
    (p.Evolve (.FundsWithdrawn amt desc tm false)).FundsWithdrawnInPeriod =
        p.FundsWithdrawnInPeriod + amt ∧
    (a.Evolve (.FundsWithdrawn amt desc tm false)).FundsWithdrawnInPeriod =
        a.FundsWithdrawnInPeriod ∧
    (a.Evolve (.FundsWithdrawn amt desc tm false)).PeriodStartTime = a.PeriodStartTime ∧
    (a.Evolve (.FundsWithdrawn amt desc tm false)).NextPeriodStartTime =
        a.NextPeriodStartTime := by
  refine ⟨rfl, rfl, ?_, ?_, ?_⟩ <;>
    simp [Account.Evolve, ha]

/-- Witness for C10 on the zero summary and the empty account. -/
theorem c10_summary_counts_without_policy_witness :
    (emptySummary.Evolve (.FundsWithdrawn 5 "w" 0 false)).WithdrawalsInPeriod =
        emptySummary.WithdrawalsInPeriod + 1 ∧
    (emptySummary.Evolve (.FundsWithdrawn 5 "w" 0 false)).FundsWithdrawnInPeriod =
        emptySummary.FundsWithdrawnInPeriod + 5 ∧
    (NewAccount.Evolve (.FundsWithdrawn 5 "w" 0 false)).FundsWithdrawnInPeriod =
        NewAccount.FundsWithdrawnInPeriod ∧
    (NewAccount.Evolve (.FundsWithdrawn 5 "w" 0 false)).PeriodStartTime =
        NewAccount.PeriodStartTime ∧
    (NewAccount.Evolve (.FundsWithdrawn 5 "w" 0 false)).NextPeriodStartTime =
        NewAccount.NextPeriodStartTime :=
  c10_summary_counts_without_policy emptySummary NewAccount 5 "w" 0 rfl rfl

/-- C9: `SetWithdrawPolicy.Validate` rejects exactly the commands whose
maximum amount is negative or whose period is not one of the four period
constants; in particular a zero maximum with a valid period passes. -/
theorem c9_setPolicy_validate :
    (∀ (m : Decimal) (p : String),
        Cmd.Validate (.SetWithdrawPolicy m p) ≠ none ↔
          (m < 0 ∨ ¬(p = Minute ∨ p = Daily ∨ p = Weekly ∨ p = Monthly))) ∧
      ∀ (p : String), (p = Minute ∨ p = Daily ∨ p = Weekly ∨ p = Monthly) →
        Cmd.Validate (.SetWithdrawPolicy 0 p) = none := by
  have key : ∀ (m : Decimal) (p : String),
      Cmd.Validate (.SetWithdrawPolicy m p) ≠ none ↔
        (m < 0 ∨ ¬(p = Minute ∨ p = Daily ∨ p = Weekly ∨ p = Monthly)) := by
    intro m p
    simp only [Cmd.Validate]
    by_cases h1 : m < 0
    · rw [if_pos h1]
      simp [h1]
    · rw [if_neg h1]
      by_cases h2 : p = Minute ∨ p = Daily ∨ p = Weekly ∨ p = Monthly
      · rw [if_pos h2]
        simp [h1, h2]
      · rw [if_neg h2]
        simp [h1, h2]
  refine ⟨key, fun p hp => ?_⟩
  by_contra hne
  have := (key 0 p).mp hne
  rcases this with h | h
  · exact absurd h (by norm_num)
  · exact h hp

/-- Witness for C9: a zero-maximum daily policy passes validation. -/
theorem c9_setPolicy_validate_witness :
    Cmd.Validate (.SetWithdrawPolicy 0 Daily) = none :=
  c9_setPolicy_validate.2 Daily (Or.inr (Or.inl rfl))

lemma currentFunds_agree_step (a : Account) (c : CurrentFunds) (e : Event)
    (h : a.CurrentFunds = c.Amount) :
    (a.Evolve e).CurrentFunds = (c.Evolve e).Amount := by
  cases e with
  | FundsDeposited amount description time =>
      simp [Account.Evolve, CurrentFunds.Evolve, h]
  | FundsWithdrawn amount description time periodChanged =>
      simp only [Account.Evolve, CurrentFunds.Evolve]
      split
      · split <;> simp [h]
      · simp [h]
  | WithdrawPolicySet maxWithdrawAmount period pst st nst =>
      simp [Account.Evolve, CurrentFunds.Evolve, h]
  | WithdrawPolicyRemoved tm =>
      simp [Account.Evolve, CurrentFunds.Evolve, h]

lemma currentFunds_agree_fold (evs : List Event) :
    ∀ (a : Account) (c : CurrentFunds), a.CurrentFunds = c.Amount →
      (evs.foldl Account.Evolve a).CurrentFunds = (evs.foldl CurrentFunds.Evolve c).Amount := by
  induction evs with
  | nil => intro a c h; simpa using h
  | cons e rest ih =>
      intro a c h
      simp only [List.foldl_cons]
      exact ih _ _ (currentFunds_agree_step a c e h)

/-- C6: for every event sequence, the `CurrentFunds` field of the account
folded with `Account.Evolve` from the empty account equals the `Amount` of
the `CurrentFunds` projection folded with `CurrentFunds.Evolve` from the
empty projection. -/
theorem c6_account_agrees_with_projection (evs : List Event) :
    (evs.foldl Account.Evolve NewAccount).CurrentFunds =
      (evs.foldl CurrentFunds.Evolve { Amount := 0 }).Amount :=
  currentFunds_agree_fold evs NewAccount { Amount := 0 } rfl

/-- C8: `Account.Decide` never mutates the account, and whenever it returns
a business error it returns no events. -/
theorem c8_decide_pure (a : Account) (c : Cmd) (now : Time) :
    (a.Decide c now).1 = a ∧
      ((a.Decide c now).2.2 ≠ none → (a.Decide c now).2.1 = []) := by
  cases c with
  | DepositFunds amount description => exact ⟨rfl, fun h => absurd rfl h⟩
  | WithdrawFunds amount description =>
      simp only [Account.Decide]
      split
      · exact ⟨rfl, fun _ => rfl⟩
      · split
        · split
          · exact ⟨rfl, fun _ => rfl⟩
          · exact ⟨rfl, fun h => absurd rfl h⟩
        · exact ⟨rfl, fun h => absurd rfl h⟩
  | SetWithdrawPolicy maxAmount period => exact ⟨rfl, fun h => absurd rfl h⟩
  | RemoveWithdrawPolicy => exact ⟨rfl, fun h => absurd rfl h⟩
  | Unknown => exact ⟨rfl, fun _ => rfl⟩

/-- Witness for C8: an unknown command against the empty account errors and
produces no events while leaving the account as it was. -/
theorem c8_decide_pure_witness :
    (NewAccount.Decide Cmd.Unknown 0).1 = NewAccount ∧
      (NewAccount.Decide Cmd.Unknown 0).2.1 = [] :=
  ⟨(c8_decide_pure NewAccount Cmd.Unknown 0).1,
   (c8_decide_pure NewAccount Cmd.Unknown 0).2 (by decide)⟩

lemma decide_withdraw_eq (a : Account) (amt : Decimal) (desc : String) (now : Time) :
    a.Decide (.WithdrawFunds amt desc) now =
      if a.CurrentFunds - amt < 0 then (a, [], some .InsufficientFunds)
      else if a.PolicyPeriod ≠ "" then
        (if decide (a.NextPeriodStartTime ≤ now) = false ∧
            a.MaxWithdrawAmount < a.FundsWithdrawnInPeriod + amt
         then (a, [], some .ExceedWithinPeriod)
         else (a, [.FundsWithdrawn amt desc now (decide (a.NextPeriodStartTime ≤ now))], none))
      else (a, [.FundsWithdrawn amt desc now false], none) := rfl

set_option linter.unusedVariables false in
/-- C3: on a positive-amount `WithdrawFunds`, `Decide` errors with
`InsufficientFunds` exactly when the balance would go negative; otherwise,
with a policy active, it errors with `ExceedWithinPeriod` exactly when the
period has not rolled over and the period total plus the amount exceeds the
maximum; in every remaining case it emits exactly one `FundsWithdrawn` event
carrying the amount, description, the current instant, and the computed
period-changed flag. -/
theorem c3_withdraw_decide (a : Account) (amt : Decimal) (desc : String) (now : Time)
    (hamt : 0 < amt) :
    ((a.Decide (.WithdrawFunds amt desc) now).2.2 = some .InsufficientFunds ↔
        a.CurrentFunds - amt < 0) ∧
    (¬(a.CurrentFunds - amt < 0) → a.PolicyPeriod ≠ "" →
      ((a.Decide (.WithdrawFunds amt desc) now).2.2 = some .ExceedWithinPeriod ↔
        (¬(a.NextPeriodStartTime ≤ now) ∧
          a.MaxWithdrawAmount < a.FundsWithdrawnInPeriod + amt))) ∧
    (¬(a.CurrentFunds - amt < 0) →
      ¬(a.PolicyPeriod ≠ "" ∧ ¬(a.NextPeriodStartTime ≤ now) ∧
          a.MaxWithdrawAmount < a.FundsWithdrawnInPeriod + amt) →
      ((a.Decide (.WithdrawFunds amt desc) now).2.1 =
          [.FundsWithdrawn amt desc now
            (if a.PolicyPeriod = "" then false else decide (a.NextPeriodStartTime ≤ now))] ∧
        (a.Decide (.WithdrawFunds amt desc) now).2.2 = none)) := by
  rw [decide_withdraw_eq]
  by_cases hins : a.CurrentFunds - amt < 0
  · rw [if_pos hins]
    refine ⟨by simp [hins], fun h _ => absurd hins h, fun h _ => absurd hins h⟩
  · rw [if_neg hins]
    by_cases hpol : a.PolicyPeriod = ""
    · rw [if_neg (by simpa using hpol)]
      refine ⟨by simp [hins], fun _ hp => absurd hpol hp, fun _ _ => ?_⟩
      rw [if_pos hpol]
      exact ⟨rfl, rfl⟩
    · rw [if_pos hpol]
      by_cases hnext : a.NextPeriodStartTime ≤ now
      · rw [if_neg (by simp [hnext])]
        refine ⟨by simp [hins], fun _ _ => by simp [hnext], fun _ _ => ?_⟩
        rw [if_neg hpol]
        simp [hnext]
      · by_cases hover : a.MaxWithdrawAmount < a.FundsWithdrawnInPeriod + amt
        · rw [if_pos (by simp [hnext, hover])]
          refine ⟨by simp [hins], fun _ _ => by simp [hnext, hover], fun _ hrem => ?_⟩
          exact absurd ⟨hpol, hnext, hover⟩ hrem
        · rw [if_neg (by simp [hnext, hover])]
          refine ⟨by simp [hins], fun _ _ => by simp [hnext, hover], fun _ _ => ?_⟩
          rw [if_neg hpol]
          exact ⟨rfl, rfl⟩

/-- Witness for C3: withdrawing 10 from a zero balance fails with
`InsufficientFunds`. -/
theorem c3_withdraw_decide_witness :
    (0 : Decimal) < 10 ∧
      ((NewAccount.Decide (.WithdrawFunds 10 "w") 0).2.2 = some .InsufficientFunds ↔
        NewAccount.CurrentFunds - 10 < 0) :=
  ⟨by norm_num, (c3_withdraw_decide NewAccount 10 "w" 0 (by norm_num)).1⟩

lemma runStep_nonneg (s : Account × List Event) (c : Cmd × Time)
    (hv : c.1.Validate = none) (h : 0 ≤ s.1.CurrentFunds) :
    0 ≤ (runStep s c).1.CurrentFunds := by
  obtain ⟨cmd, now⟩ := c
  obtain ⟨a, evs⟩ := s
  cases cmd with
  | DepositFunds amount description =>
      have hpos : ¬(amount ≤ 0) := by
        intro hle
        simp only [Cmd.Validate, if_pos hle] at hv
        exact Option.noConfusion hv
      simp only [runStep, Account.Decide, List.foldl_cons, List.foldl_nil, Account.Evolve]
      simp only at h
      have : (0 : Decimal) ≤ amount := le_of_lt (not_le.mp hpos)
      exact add_nonneg h this
  | WithdrawFunds amount description =>
      simp only [runStep, decide_withdraw_eq]
      by_cases hins : a.CurrentFunds - amount < 0
      · rw [if_pos hins]
        exact h
      · rw [if_neg hins]
        by_cases hpol : a.PolicyPeriod ≠ ""
        · rw [if_pos hpol]
          by_cases hcond : decide (a.NextPeriodStartTime ≤ now) = false ∧
              a.MaxWithdrawAmount < a.FundsWithdrawnInPeriod + amount
          · rw [if_pos hcond]
            exact h
          · rw [if_neg hcond]
            simp only [List.foldl_cons, List.foldl_nil, Account.Evolve]
            have hfin : 0 ≤ a.CurrentFunds - amount := by linarith [not_lt.mp hins]
            split <;> (try split) <;> simpa using hfin
        · rw [if_neg hpol]
          simp only [List.foldl_cons, List.foldl_nil, Account.Evolve]
          have hfin : 0 ≤ a.CurrentFunds - amount := by linarith [not_lt.mp hins]
          split <;> (try split) <;> simpa using hfin
  | SetWithdrawPolicy maxAmount period =>
      simp only [runStep, Account.Decide, List.foldl_cons, List.foldl_nil, Account.Evolve]
      exact h
  | RemoveWithdrawPolicy =>
      simp only [runStep, Account.Decide, List.foldl_cons, List.foldl_nil, Account.Evolve]
      exact h
  | Unknown =>
      simp only [runStep, Account.Decide]
      exact h

lemma run_nonneg_fold (cmds : List (Cmd × Time)) :
    ∀ s : Account × List Event, (∀ c ∈ cmds, c.1.Validate = none) →
      0 ≤ s.1.CurrentFunds → 0 ≤ (cmds.foldl runStep s).1.CurrentFunds := by
  induction cmds with
  | nil => intro s _ h; simpa using h
  | cons c rest ih =>
      intro s hv h
      simp only [List.foldl_cons]
      exact ih _ (fun d hd => hv d (List.mem_cons_of_mem c hd))
        (runStep_nonneg s c (hv c (List.mem_cons_self c rest)) h)

/-- C1: over every sequence of structurally valid commands processed through
the decide/evolve loop from the empty account, the resulting current funds
are never negative. -/
theorem c1_currentFunds_never_negative (cmds : List (Cmd × Time))
    (hv : ∀ c ∈ cmds, c.1.Validate = none) :
    0 ≤ (run cmds).1.CurrentFunds :=
  run_nonneg_fold cmds (NewAccount, []) hv (le_refl 0)

/-- Witness for C1: a single valid deposit leaves a non-negative balance. -/
theorem c1_currentFunds_never_negative_witness :
    (∀ c ∈ [((Cmd.DepositFunds 5 "pay" : Cmd), (0 : Time))], Cmd.Validate c.1 = none) ∧
      0 ≤ (run [(Cmd.DepositFunds 5 "pay", 0)]).1.CurrentFunds :=
  ⟨by decide, c1_currentFunds_never_negative [(Cmd.DepositFunds 5 "pay", 0)] (by decide)⟩

lemma runStep_state_replays (s : Account × List Event) (c : Cmd × Time)
    (h : s.1 = s.2.foldl Account.Evolve NewAccount) :
    (runStep s c).1 = (runStep s c).2.foldl Account.Evolve NewAccount := by
  obtain ⟨a, evs⟩ := s
  unfold runStep
  split
  · rename_i events heq
    simp only at h ⊢
    rw [List.foldl_append, ← h]
  · exact h

/-- Coherence of the loop with the event-sourcing contract: the state each
command is decided against is exactly the replay of all prior accepted
events from the empty account. -/
lemma run_state_replays_events (cmds : List (Cmd × Time)) :
    (run cmds).1 = (run cmds).2.foldl Account.Evolve NewAccount := by
  unfold run
  generalize hs : ((NewAccount, []) : Account × List Event) = s
  have hbase : s.1 = s.2.foldl Account.Evolve NewAccount := by
    rw [← hs]
    rfl
  clear hs
  induction cmds generalizing s with
  | nil => simpa using hbase
  | cons c rest ih =>
      simp only [List.foldl_cons]
      exact ih _ (runStep_state_replays s c hbase)

lemma periodTail_append_single (evs : List Event) (e : Event) :
    periodTail (evs ++ [e]) = periodTailStep (periodTail evs) e := by
  unfold periodTail
  rw [List.foldl_append]
  rfl

lemma period_ne_empty (p : String)
    (hp : p = Minute ∨ p = Daily ∨ p = Weekly ∨ p = Monthly) : p ≠ "" := by
  rcases hp with h | h | h | h <;> subst h <;> decide

lemma tailInv_step (s : Account × List Event) (c : Cmd × Time)
    (hv : c.1.Validate = none) (hinv : tailInv s.1 (periodTail s.2)) :
    tailInv (runStep s c).1 (periodTail (runStep s c).2) := by
  obtain ⟨cmd, now⟩ := c
  obtain ⟨a, evs⟩ := s
  obtain ⟨hiff, hbound⟩ := hinv
  cases cmd with
  | DepositFunds amount description =>
      simp only [runStep, Account.Decide, List.foldl_cons, List.foldl_nil]
      rw [periodTail_append_single]
      constructor
      · simpa [Account.Evolve, periodTailStep] using hiff
      · intro hpol
        simp only [Account.Evolve, periodTailStep] at hpol ⊢
        exact hbound hpol
  | WithdrawFunds amount description =>
      have hamt : 0 < amount := by
        by_contra hle
        simp only [Cmd.Validate, if_pos (not_lt.mp hle)] at hv
        exact Option.noConfusion hv
      simp only [runStep, decide_withdraw_eq]
      by_cases hins : a.CurrentFunds - amount < 0
      · rw [if_pos hins]
        exact ⟨hiff, hbound⟩
      · rw [if_neg hins]
        by_cases hpol : a.PolicyPeriod ≠ ""
        · rw [if_pos hpol]
          by_cases hcond : decide (a.NextPeriodStartTime ≤ now) = false ∧
              a.MaxWithdrawAmount < a.FundsWithdrawnInPeriod + amount
          · rw [if_pos hcond]
            exact ⟨hiff, hbound⟩
          · rw [if_neg hcond]
            simp only [List.foldl_cons, List.foldl_nil]
            rw [periodTail_append_single]
            have hm1 : (periodTail evs).1 = true := hiff.mpr hpol
            obtain ⟨hb1, hb2, hb3⟩ := hbound hpol
            by_cases hnext : a.NextPeriodStartTime ≤ now
            · have hpc : decide (a.NextPeriodStartTime ≤ now) = true := by
                simpa using hnext
              rw [hpc]
              constructor
              · simp [Account.Evolve, periodTailStep, hm1, hpol]
              · intro _
                simp only [Account.Evolve, periodTailStep, hm1]
                simp [hpol, hamt.le, hb3]
            · have hpc : decide (a.NextPeriodStartTime ≤ now) = false := by
                simpa using hnext
              rw [hpc]
              have hroom : a.FundsWithdrawnInPeriod + amount ≤ a.MaxWithdrawAmount := by
                by_contra hover
                exact hcond ⟨hpc, not_le.mp hover⟩
              constructor
              · simp [Account.Evolve, periodTailStep, hm1, hpol]
              · intro _
                simp only [Account.Evolve, periodTailStep, hm1]
                simp only [if_neg (Bool.false_ne_true), List.sum_append, List.sum_cons,
                  List.sum_nil]
                simp [hpol]
                constructor
                · linarith
                · constructor
                  · linarith
                  · exact hb3
        · rw [if_neg hpol]
          simp only [List.foldl_cons, List.foldl_nil]
          rw [periodTail_append_single]
          have hm1 : (periodTail evs).1 = false := by
            rcases Bool.eq_false_or_eq_true (periodTail evs).1 with h | h
            · exact absurd (hiff.mp h) hpol
            · exact h
          constructor
          · simp only [Account.Evolve, periodTailStep, hm1]
            simpa [hpol] using hiff
          · intro hpol2
            simp only [Account.Evolve, periodTailStep, hm1] at hpol2 ⊢
            simp [hpol] at hpol2
  | SetWithdrawPolicy maxAmount period =>
      have hval : ¬(maxAmount < 0) ∧
          (period = Minute ∨ period = Daily ∨ period = Weekly ∨ period = Monthly) := by
        by_cases h1 : maxAmount < 0
        · simp only [Cmd.Validate, if_pos h1] at hv
          exact Option.noConfusion hv
        · refine ⟨h1, ?_⟩
          by_cases h2 : period = Minute ∨ period = Daily ∨ period = Weekly ∨ period = Monthly
          · exact h2
          · simp only [Cmd.Validate, if_neg h1, if_neg h2] at hv
            exact Option.noConfusion hv
      have hpne : period ≠ "" := period_ne_empty period hval.2
      simp only [runStep, Account.Decide, List.foldl_cons, List.foldl_nil]
      rw [periodTail_append_single]
      constructor
      · simpa [Account.Evolve, periodTailStep] using hpne
      · intro _
        simp only [Account.Evolve, periodTailStep]
        simp [not_lt.mp hval.1]
  | RemoveWithdrawPolicy =>
      simp only [runStep, Account.Decide, List.foldl_cons, List.foldl_nil]
      rw [periodTail_append_single]
      constructor
      · simp [Account.Evolve, periodTailStep]
      · intro hpol
        simp [Account.Evolve] at hpol
  | Unknown =>
      simp only [runStep, Account.Decide]
      exact ⟨hiff, hbound⟩

lemma tailInv_run (cmds : List (Cmd × Time)) :
    ∀ s : Account × List Event, (∀ c ∈ cmds, c.1.Validate = none) →
      tailInv s.1 (periodTail s.2) →
      tailInv (cmds.foldl runStep s).1 (periodTail (cmds.foldl runStep s).2) := by
  induction cmds with
  | nil => intro s _ h; simpa using h
  | cons c rest ih =>
      intro s hv h
      simp only [List.foldl_cons]
      exact ih _ (fun d hd => hv d (List.mem_cons_of_mem c hd))
        (tailInv_step s c (hv c (List.mem_cons_self c rest)) h)

set_option maxRecDepth 100000 in
/-- C2 as stated is false: deposit 100, set a daily policy with maximum 10 at
2019-05-03 12:00, then withdraw 100 at 2019-05-04 12:00. The withdrawal
crosses the period boundary, so `Decide` accepts it without consulting the
maximum; afterwards the policy is active and the sum of the withdrawal
amounts falling inside the account's current window `[periodStart,
nextPeriodStart)` is 100, which exceeds the maximum 10. -/
theorem c2_window_sum_counterexample :
    (∀ c ∈ cexC2cmds, Cmd.Validate c.1 = none) ∧
      (run cexC2cmds).1.PolicyPeriod ≠ "" ∧
      ¬(windowWithdrawSum (run cexC2cmds).1.PeriodStartTime
          (run cexC2cmds).1.NextPeriodStartTime (run cexC2cmds).2 ≤
        (run cexC2cmds).1.MaxWithdrawAmount) := by
  with_unfolding_all decide

/-- C2 amended: with an active policy, the sum of the amounts of the
withdrawals the account attributes to the current period — those since the
last period rollover or policy change, excluding the period-opening
withdrawal, whose event carries `periodChanged = true` and is checked against
available funds only — never exceeds the policy's maximum amount. -/
theorem c2_period_tail_sum_bounded (cmds : List (Cmd × Time))
    (hv : ∀ c ∈ cmds, c.1.Validate = none)
    (hpol : (run cmds).1.PolicyPeriod ≠ "") :
    periodTailSum (run cmds).2 ≤ (run cmds).1.MaxWithdrawAmount := by
  have hbase : tailInv (NewAccount, ([] : List Event)).1 (periodTail []) := by
    constructor
    · simp [periodTail, NewAccount]
    · intro h
      exact absurd rfl h
  have h := tailInv_run cmds (NewAccount, []) hv hbase
  exact (h.2 hpol).2.1

set_option maxRecDepth 100000 in
/-- Witness for C2 (amended): after validly setting a daily policy of 10 the
policy is active and the current period's tail sum 0 is within the maximum. -/
theorem c2_period_tail_sum_bounded_witness :
    (∀ c ∈ [((Cmd.SetWithdrawPolicy 10 Daily : Cmd), tMay3Noon)], Cmd.Validate c.1 = none) ∧
      (run [(Cmd.SetWithdrawPolicy 10 Daily, tMay3Noon)]).1.PolicyPeriod ≠ "" ∧
      periodTailSum (run [(Cmd.SetWithdrawPolicy 10 Daily, tMay3Noon)]).2 ≤
        (run [(Cmd.SetWithdrawPolicy 10 Daily, tMay3Noon)]).1.MaxWithdrawAmount :=
  ⟨by decide, by with_unfolding_all decide,
   c2_period_tail_sum_bounded [(Cmd.SetWithdrawPolicy 10 Daily, tMay3Noon)]
     (by decide) (by with_unfolding_all decide)⟩

end Kmm
